import Mathlib

/-
Verification development for the worker-pool repository.

Shallow embedding of the three container classes (`Queue` from src/unnamed/part_004,
`PriorityQueue` from src/src/priority-queue.ts, `CircularBuffer` from
src/src/init-worker.ts part 2) and of the pool control core
(`WorkerPool` from src/src/init-worker.ts part 3 / src/src/worker-pool.ts part 1).

Modelling conventions:
- JS numbers indexing arrays are `Nat`; task priorities are `Int`.
- A JS array is a `List`; `arr[i]` with an in-range index is `List.getD` /
  `List.get?`; `arr.slice(k)` is `List.drop k`; `arr.pop()` is `dropLast` +
  last element; `arr[i] = x` is `List.set`.
- JS `while` loops whose iteration count is bounded by an index that strictly
  moves toward a bound are written with an explicit iteration counter (`fuel`)
  initialized to that bound, so all definitions are structural and evaluate
  with `decide`/`rfl`.  At counter exhaustion the loop body cannot recurse in
  the source either (the comments at each definition justify the bound), so
  the counter never changes the computed value.
- A function that can throw returns an `Option`/`Except`; `undefined` results
  are `Option`.
-/

namespace WP

/-! ### Queue (src/unnamed/part_004)

`class Queue<T>` with fields `items`, `length`, `head`.  `push` appends and
recomputes `length = items.length - head`; `pop` reads `items[head]`, then
either compacts (`items = items.slice(head+1); head = 0`) when
`head >= items.length >> 1`, or advances `head`. -/

structure Queue (T : Type) where
  items : List T
  length : Nat
  head : Nat
deriving Repr, DecidableEq

def Queue.empty {T : Type} : Queue T := ⟨[], 0, 0⟩

def Queue.len {T : Type} (q : Queue T) : Nat := q.length

def Queue.push {T : Type} (q : Queue T) (item : T) : Queue T :=
  let items := q.items ++ [item]
  { items := items, length := items.length - q.head, head := q.head }

def Queue.pop {T : Type} (q : Queue T) : Option T × Queue T :=
  if q.length = 0 then
    (none, q)
  else
    let items := q.items
    let length := items.length
    let head := q.head
    let item := items.get? head
    if length / 2 ≤ head then
      let items' := items.drop (head + 1)
      (item, { items := items', length := items'.length - 0, head := 0 })
    else
      (item, { items := items, length := items.length - (head + 1), head := head + 1 })

def Queue.peek {T : Type} (q : Queue T) : Option T :=
  if q.length = 0 then none else q.items.get? q.head

def Queue.clear {T : Type} (_ : Queue T) : Queue T := ⟨[], 0, 0⟩

/-- The logical contents of a `Queue`: everything from `head` on. -/
def Queue.toList {T : Type} (q : Queue T) : List T := q.items.drop q.head

/-! ### Naive FIFO (spec side for the refinement claim C9)

Modelled from the spec's words: "FIFO task queue preserves submission order",
"`pop` yields submission order" — a plain list, pushed at the back, popped at
the front. -/

abbrev ListFifo (T : Type) : Type := List T

def ListFifo.empty {T : Type} : ListFifo T := []

def ListFifo.push {T : Type} (l : ListFifo T) (x : T) : ListFifo T := l ++ [x]

def ListFifo.pop {T : Type} (l : ListFifo T) : Option T × ListFifo T :=
  match l with
  | [] => (none, [])
  | x :: xs => (some x, xs)

def ListFifo.peek {T : Type} (l : ListFifo T) : Option T := l.head?

def ListFifo.len {T : Type} (l : ListFifo T) : Nat := l.length

/-! ### PriorityQueue (src/src/priority-queue.ts)

Binary min-heap over a JS array, with `siftUp` / `siftDown` loops.  The pool
instantiates it at comparator `(a, b) => (a.priority ?? 0) - (b.priority ?? 0)`
(src/src/init-worker.ts part 3 line 192, src/src/worker-pool.ts line 40), so the
embedding stores the `Int` comparator keys and uses that subtraction
comparator. -/

def pqcompare (a b : Int) : Int := a - b

/-- JS `items[i]` at an in-range index (all heap accesses are guarded to be
in range, so the default is never read on an executed path). -/
def getI (l : List Int) (i : Nat) : Int := l.getD i 0

/-- The `while (index > 0)` loop of `siftUp`.  Each step replaces `index` by
`(index - 1) >> 1 < index`, so the loop runs at most `index` times; the
counter starts at `index`, hence hits 0 only when `index = 0`, where the
fallback `items.set index item` is exactly the source's final
`items[index] = item`. -/
def siftUpAux : Nat → List Int → Int → Nat → List Int
  | 0, items, item, index => items.set index item
  | fuel + 1, items, item, index =>
    if index > 0 then
      let parent := (index - 1) / 2
      if 0 ≤ pqcompare item (getI items parent) then
        items.set index item
      else
        siftUpAux fuel (items.set index (getI items parent)) item parent
    else
      items.set index item

/-- The `while (true)` loop of `siftDown`.  The source computes `smallest`
(left child if it beats `item`, then right child if it also beats `item` —
note it never compares the two children with each other) and either breaks
(`smallest == index`) or shifts and continues at `smallest > index`.  `index`
strictly increases and stays below `length`, so `length` iterations always
suffice; the fuel-0 fallback equals the break case and is never reached with
the initial counter `length`. -/
def siftDownAux : Nat → List Int → Nat → Int → Nat → List Int
  | 0, items, _, item, index => items.set index item
  | fuel + 1, items, length, item, index =>
    let left := 2 * index + 1
    let right := left + 1
    if left < length ∧ pqcompare (getI items left) item < 0 then
      if right < length ∧ pqcompare (getI items right) item < 0 then
        siftDownAux fuel (items.set index (getI items right)) length item right
      else
        siftDownAux fuel (items.set index (getI items left)) length item left
    else if right < length ∧ pqcompare (getI items right) item < 0 then
      siftDownAux fuel (items.set index (getI items right)) length item right
    else
      items.set index item

structure PriorityQueue where
  items : List Int
  length : Nat
deriving Repr, DecidableEq

def PriorityQueue.empty : PriorityQueue := ⟨[], 0⟩

def PriorityQueue.len (pq : PriorityQueue) : Nat := pq.length

def PriorityQueue.push (pq : PriorityQueue) (item : Int) : PriorityQueue :=
  let items := pq.items ++ [item]
  let length := pq.length + 1
  ⟨siftUpAux (length - 1) items item (length - 1), length⟩

def PriorityQueue.pop (pq : PriorityQueue) : Option Int × PriorityQueue :=
  if pq.length = 0 then
    (none, pq)
  else
    let items := pq.items
    let top := items.get? 0
    let last := getI items (items.length - 1)
    let items' := items.dropLast
    let length := pq.length - 1
    if length = 0 then
      (top, ⟨items', length⟩)
    else
      (top, ⟨siftDownAux length items' length last 0, length⟩)

def PriorityQueue.peek (pq : PriorityQueue) : Option Int :=
  if pq.length = 0 then none else pq.items.get? 0

def PriorityQueue.clear (_ : PriorityQueue) : PriorityQueue := ⟨[], 0⟩

/-! ### CircularBuffer (src/src/init-worker.ts part 2) -/

structure CircularBuffer (T : Type) where
  capacity : Nat
  items : List (Option T)
  head : Nat
  tail : Nat
  length : Nat
deriving Repr, DecidableEq

/-- Constructor `new CircularBuffer(size)`: a sparse array of `size` undefined slots. -/
def CircularBuffer.new {T : Type} (size : Nat) : CircularBuffer T :=
  ⟨size, List.replicate size none, 0, 0, 0⟩

def CircularBuffer.size {T : Type} (b : CircularBuffer T) : Nat := b.capacity

def CircularBuffer.len {T : Type} (b : CircularBuffer T) : Nat := b.length

def CircularBuffer.isFull {T : Type} (b : CircularBuffer T) : Bool :=
  b.length = b.capacity

def CircularBuffer.isEmpty {T : Type} (b : CircularBuffer T) : Bool :=
  b.length = 0

/-- A `push` throws when the buffer is full: modelled as `none`. -/
def CircularBuffer.push {T : Type} (b : CircularBuffer T) (item : T) :
    Option (CircularBuffer T) :=
  if b.length = b.capacity then
    none
  else
    some { b with
      items := b.items.set b.tail (some item)
      tail := (b.tail + 1) % b.capacity
      length := b.length + 1 }

def CircularBuffer.pop {T : Type} (b : CircularBuffer T) : Option T × CircularBuffer T :=
  if b.length = 0 then
    (none, b)
  else
    let item := b.items.getD b.head none
    (item, { b with head := (b.head + 1) % b.capacity, length := b.length - 1 })

def CircularBuffer.peek {T : Type} (b : CircularBuffer T) : Option T :=
  if b.length = 0 then none else b.items.getD b.head none

def CircularBuffer.clear {T : Type} (b : CircularBuffer T) : CircularBuffer T :=
  { b with items := List.replicate b.capacity none, head := 0, tail := 0, length := 0 }

/-! ## Claim C9 — the optimized Queue refines the naive list FIFO -/

/-- One observable queue operation. -/
inductive QOp (T : Type) where
  | push (x : T)
  | pop
  | peek
  | len
deriving Repr, DecidableEq

/-- The observable outcome of one queue operation (`push` returns nothing). -/
inductive QOut (T : Type) where
  | unit
  | item (x? : Option T)
  | count (n : Nat)
deriving Repr, DecidableEq

def Queue.step {T : Type} (q : Queue T) : QOp T → QOut T × Queue T
  | .push x => (.unit, q.push x)
  | .pop => let p := q.pop; (.item p.1, p.2)
  | .peek => (.item q.peek, q)
  | .len => (.count q.len, q)

def Queue.run {T : Type} (q : Queue T) : List (QOp T) → List (QOut T)
  | [] => []
  | op :: ops => let p := q.step op; p.1 :: p.2.run ops

def ListFifo.step {T : Type} (l : ListFifo T) : QOp T → QOut T × ListFifo T
  | .push x => (.unit, l.push x)
  | .pop => let p := l.pop; (.item p.1, p.2)
  | .peek => (.item l.peek, l)
  | .len => (.count l.len, l)

def ListFifo.run {T : Type} (l : ListFifo T) : List (QOp T) → List (QOut T)
  | [] => []
  | op :: ops => let p := l.step op; p.1 :: p.2.run ops

/-- Abstraction relation: the optimized queue represents the list `l`. -/
def QueueAbs {T : Type} (q : Queue T) (l : List T) : Prop :=
  q.head ≤ q.items.length ∧ q.items.drop q.head = l ∧
    q.length = q.items.length - q.head

/-! ### Pool control core (src/src/init-worker.ts part 3)

The autoscaling `WorkerPool` class.  The fixed-size variant
(src/src/worker-pool.ts part 1) shares verbatim the code paths cited by claims
C2, C4 and C8 (its `runTask` merely omits the closed check and the `autoGrow`
call, and its `close` omits the autoshrink-timer stop).

Modelling conventions for the pool:
- Workers are identified by `Nat` (fresh ids from `nextWorkerId`); a `Task`
  value stands for the JS task object (its `id` plays the role of object
  identity); `Set`s are duplicate-free lists, `Map`s are association lists.
- Each `PromiseResolvers` allocation gets a fresh id from `nextId`; the
  caller-visible promise states live in `promises`.  JS promises settle once:
  later resolve/reject calls are no-ops (`PState.settle`).
- `task.abortSignal.addEventListener('abort', abort)` subscriptions are the
  `listeners` list of pairs (task, id of the resolvers captured by that abort
  closure); `removeEventListener` with that same closure removes that pair.
- `worker.postMessage` may throw synchronously; the environment's behaviour
  is the `postError` argument (`none` = success, `some e` = throws error `e`).
- Everything the pool does between two suspension points is one Lean
  function.  `await this.autoGrow()` inside `runTask` is modelled as the
  direct call (the await suspends only on crash-replacement tokens, which
  change no modelled state); the mutual recursion
  runTask → autoGrow → addNewWorker → onIdleWorker → runTask is tied with an
  explicit depth counter `fuel`, and a call at exhausted depth reports
  `Exn.outOfFuel` (all general theorems quantify over `fuel`).
- Operations that can throw return `Except`: `Exn.poolClosed` is
  `throw new Error('Pool closed')`, `Exn.bufferFull` is the circular-buffer
  overflow throw.  The pool is modelled in FIFO queue mode
  (`usePriorityTaskQueue = false`); none of the pool claims C2-C8 depends on
  the queue discipline. -/

/-- The JS task object handed to `runTask` (worker-task-descriptor.ts).
`signalAborted` is the value of `task.abortSignal.aborted`. -/
structure Task where
  id : Nat
  hasAbortSignal : Bool
  signalAborted : Bool
  hasOnEvent : Bool
  priority : Int
deriving Repr, DecidableEq

/-- The per-task state stored in `taskRegistry`: the id of its
`PromiseResolvers`, `meta.aborted`, and the shared one-byte abort flag. -/
structure TaskInfo where
  resolversId : Nat
  aborted : Bool
  bufferByte : Nat
deriving Repr, DecidableEq

/-- Observable error values crossing the task completion. -/
inductive ErrVal where
  | abortException
  | poolClosed
  | err (code : Nat)
deriving Repr, DecidableEq

/-- A JS promise is pending or settled exactly once. -/
inductive PState where
  | pending
  | resolvedWith (v : Nat)
  | rejectedWith (e : ErrVal)
deriving Repr, DecidableEq

/-- Settling is single-shot: on an already-settled promise it is a no-op. -/
def PState.settle (p : PState) (o : PState) : PState :=
  match p with
  | .pending => o
  | _ => p

def settleProm : List (Nat × PState) → Nat → PState → List (Nat × PState)
  | [], _, _ => []
  | q :: P, id, o =>
    (if q.1 = id then (q.1, q.2.settle o) else q) :: settleProm P id o

def lookupProm : List (Nat × PState) → Nat → Option PState
  | [], _ => none
  | q :: rest, id => if q.1 = id then some q.2 else lookupProm rest id

/-- Association-list lookup (JS `Map.get`). -/
def alookup {A B : Type} [DecidableEq A] : List (A × B) → A → Option B
  | [], _ => none
  | p :: m, k => if p.1 = k then some p.2 else alookup m k

/-- JS `Map.delete`. -/
def aremove {A B : Type} [DecidableEq A] : List (A × B) → A → List (A × B)
  | [], _ => []
  | p :: m, k => if p.1 = k then aremove m k else p :: aremove m k

/-- JS `Map.set`. -/
def aset {A B : Type} [DecidableEq A] (m : List (A × B)) (k : A) (v : B) :
    List (A × B) :=
  (k, v) :: aremove m k

/-- JS `Set.add`. -/
def sadd {A : Type} [DecidableEq A] (s : List A) (x : A) : List A :=
  if x ∈ s then s else x :: s

/-- JS `Set.delete` (also used for `Array.filter` exclusion of one value and
for `removeEventListener` of one subscription). -/
def sdel {A : Type} [DecidableEq A] : List A → A → List A
  | [], _ => []
  | y :: s, x => if y = x then sdel s x else y :: sdel s x

/-- The mutable state of the `WorkerPool` class (field names as in the
source), plus the modelling bookkeeping (`promises`, `nextId`, `listeners`,
`eventLog`, `nextWorkerId`). `replacingCrashedWorkers` counts the in-flight
crash-replacement tokens of `replacingCrashedWorkerResolvers`. -/
structure WorkerPool where
  minPoolSize : Nat
  maxPoolSize : Nat
  workers : List Nat
  idleWorkers : CircularBuffer Nat
  runningTaskByWorker : List (Nat × Task)
  acquiringWorkerResolvers : Queue Nat
  acquiredWorkers : List Nat
  taskQueue : Queue Task
  runningTasks : List Task
  taskRegistry : List (Task × TaskInfo)
  closed : Bool
  availableResourceResolvers : Queue Nat
  replacingCrashedWorkers : Nat
  promises : List (Nat × PState)
  nextId : Nat
  listeners : List (Task × Nat)
  eventLog : List (Nat × Nat)
  nextWorkerId : Nat
deriving Repr, DecidableEq

/-- Exceptions escaping a pool operation. -/
inductive Exn where
  | poolClosed
  | bufferFull
  | outOfFuel
deriving Repr, DecidableEq

abbrev M (α : Type) : Type := Except Exn α

instance {α : Type} [DecidableEq α] : DecidableEq (M α) := fun a b =>
  match a, b with
  | .ok x, .ok y =>
    if h : x = y then .isTrue (by rw [h]) else .isFalse (by simp [h])
  | .error x, .error y =>
    if h : x = y then .isTrue (by rw [h]) else .isFalse (by simp [h])
  | .ok _, .error _ => .isFalse (by simp)
  | .error _, .ok _ => .isFalse (by simp)

/-- Event names are opaque to the pool logic and modelled as `Nat` codes:
code 0 is the preserved event string `sent to worker` that `runTask` emits
after a successful post. -/
def sentToWorkerEvent : Nat := 0

/-- The `while (true) { pop; skip unregistered }` drain loop of
`onIdleWorker` (lines 510-522).  Every iteration pops, so `taskQueue.len`
iterations always suffice; at counter 0 the queue is empty and the loop
breaks, which the fallback reproduces. -/
def popRegistered : Nat → Queue Task → List (Task × TaskInfo) →
    Option Task × Queue Task
  | 0, q, _ => (none, q)
  | fuel + 1, q, reg =>
    let p := q.pop
    match p.1 with
    | none => (none, p.2)
    | some t =>
      if (alookup reg t).isSome then (some t, p.2)
      else popRegistered fuel p.2 reg

/-- Embedding of `runTask` (lines 210-281).  `auto` is `this.autoGrow` (the recursive knot
is tied in `WorkerPool.runTask`).  Returns the id of the `PromiseResolvers`
whose promise the caller receives. -/
def runTaskGo (auto : WorkerPool → M WorkerPool) (s0 : WorkerPool)
    (task : Task) (acquiredWorker : Option Nat) (postError : Option Nat) :
    M (WorkerPool × Nat) :=
  if s0.closed then .error .poolClosed
  else
    let regLookup := alookup s0.taskRegistry task
    let step1 : WorkerPool × TaskInfo :=
      match regLookup with
      | some info => (s0, info)
      | none =>
        let info : TaskInfo := ⟨s0.nextId, false, 0⟩
        ({ s0 with
            promises := (s0.nextId, PState.pending) :: s0.promises
            nextId := s0.nextId + 1
            taskRegistry := aset s0.taskRegistry task info
            listeners :=
              if task.hasAbortSignal then (task, s0.nextId) :: s0.listeners
              else s0.listeners }, info)
    let s := step1.1
    let info := step1.2
    if task.hasAbortSignal ∧ task.signalAborted then
      .ok ({ s with
        promises := settleProm s.promises info.resolversId
          (.rejectedWith .abortException)
        taskRegistry := aremove s.taskRegistry task }, info.resolversId)
    else
      let step2 : Option Nat × WorkerPool :=
        match acquiredWorker with
        | some w => (some w, s)
        | none =>
          let p := s.idleWorkers.pop
          (p.1, { s with idleWorkers := p.2 })
      let s1 := step2.2
      match step2.1 with
      | some w =>
        let s2 := { s1 with
          runningTasks := sadd s1.runningTasks task
          runningTaskByWorker := aset s1.runningTaskByWorker w task }
        match postError with
        | none =>
          .ok ((if task.hasOnEvent then
              { s2 with eventLog := (task.id, sentToWorkerEvent) :: s2.eventLog }
            else s2), info.resolversId)
        | some e =>
          .ok ({ s2 with
            runningTasks := sdel s2.runningTasks task
            runningTaskByWorker := aremove s2.runningTaskByWorker w
            taskRegistry := aremove s2.taskRegistry task
            promises := settleProm s2.promises info.resolversId
              (.rejectedWith (.err e)) }, info.resolversId)
      | none =>
        match auto { s1 with taskQueue := s1.taskQueue.push task } with
        | .ok s2 => .ok (s2, info.resolversId)
        | .error e => .error e

/-- Embedding of `onIdleWorker` (lines 497-530).  `rt` is `this.runTask`. -/
def onIdleWorkerGo (rt : WorkerPool → Task → M (WorkerPool × Nat))
    (s : WorkerPool) (w : Nat) : M WorkerPool :=
  if s.closed then .ok s
  else
    let p := s.acquiringWorkerResolvers.pop
    match p.1 with
    | some rid =>
      .ok { s with
        acquiringWorkerResolvers := p.2
        promises := settleProm s.promises rid (.resolvedWith w)
        acquiredWorkers := sadd s.acquiredWorkers w }
    | none =>
      match s.idleWorkers.push w with
      | none => .error .bufferFull
      | some b =>
        let s1 := { s with idleWorkers := b }
        let dq := popRegistered s1.taskQueue.len s1.taskQueue s1.taskRegistry
        match dq.1 with
        | some t =>
          match rt { s1 with taskQueue := dq.2 } t with
          | .ok pr => .ok pr.1
          | .error e => .error e
        | none =>
          let s2 := { s1 with taskQueue := dq.2 }
          if s2.idleWorkers.len ≠ 0 then
            let pa := s2.availableResourceResolvers.pop
            match pa.1 with
            | some rid =>
              .ok { s2 with
                availableResourceResolvers := pa.2
                promises := settleProm s2.promises rid (.resolvedWith 0) }
            | none => .ok { s2 with availableResourceResolvers := pa.2 }
          else .ok s2

/-- Embedding of `addNewWorker` (lines 386-482): spawn a fresh worker (its message and
error listeners are the separate transitions `handleMessage` and
`handleWorkerError`), add it to `workers`, offer it to `onIdleWorker`. -/
def addNewWorkerGo (rt : WorkerPool → Task → M (WorkerPool × Nat))
    (s : WorkerPool) : M WorkerPool :=
  if s.closed then .ok s
  else
    let w := s.nextWorkerId
    let s1 := { s with nextWorkerId := w + 1, workers := sadd s.workers w }
    onIdleWorkerGo rt s1 w

/-- Embedding of `autoGrow` (lines 533-549).  The `await` over the crash-replacement
tokens suspends only; it changes no modelled state. -/
def autoGrowGo (rt : WorkerPool → Task → M (WorkerPool × Nat))
    (s : WorkerPool) : M WorkerPool :=
  if s.closed then .ok s
  else
    if 0 < s.taskQueue.len ∧ s.workers.length < s.maxPoolSize ∧
        s.idleWorkers.len = 0 then
      addNewWorkerGo rt s
    else .ok s

/-- Embedding of `runTask` with the recursive knot tied at depth `fuel`. -/
def WorkerPool.runTask : Nat → WorkerPool → Task → Option Nat → Option Nat →
    M (WorkerPool × Nat)
  | 0, _, _, _, _ => .error .outOfFuel
  | fuel + 1, s, task, acquiredWorker, postError =>
    runTaskGo
      (fun s1 =>
        autoGrowGo (fun s2 t => WorkerPool.runTask fuel s2 t none postError) s1)
      s task acquiredWorker postError

def WorkerPool.onIdleWorker (fuel : Nat) (postError : Option Nat)
    (s : WorkerPool) (w : Nat) : M WorkerPool :=
  onIdleWorkerGo (fun s1 t => WorkerPool.runTask fuel s1 t none postError) s w

def WorkerPool.addNewWorker (fuel : Nat) (postError : Option Nat)
    (s : WorkerPool) : M WorkerPool :=
  addNewWorkerGo (fun s1 t => WorkerPool.runTask fuel s1 t none postError) s

def WorkerPool.autoGrow (fuel : Nat) (postError : Option Nat)
    (s : WorkerPool) : M WorkerPool :=
  autoGrowGo (fun s1 t => WorkerPool.runTask fuel s1 t none postError) s

/-- Result of `acquireWorker`: an idle worker granted synchronously, or the
id of the freshly enrolled pending resolver. -/
inductive AcqRes where
  | granted (w : Nat)
  | pending (rid : Nat)
deriving Repr, DecidableEq

/-- Embedding of `acquireWorker` (lines 290-306). -/
def WorkerPool.acquireWorker (fuel : Nat) (postError : Option Nat)
    (s : WorkerPool) : M (WorkerPool × AcqRes) :=
  if s.closed then .error .poolClosed
  else
    let p := s.idleWorkers.pop
    match p.1 with
    | some w =>
      let s1 := { s with
        idleWorkers := p.2
        acquiredWorkers := sadd s.acquiredWorkers w }
      .ok (s1, .granted w)
    | none =>
      let rid := s.nextId
      let s1 := { s with
        idleWorkers := p.2
        promises := (rid, PState.pending) :: s.promises
        nextId := rid + 1
        acquiringWorkerResolvers := s.acquiringWorkerResolvers.push rid }
      match WorkerPool.autoGrow fuel postError s1 with
      | .ok s2 => .ok (s2, .pending rid)
      | .error e => .error e

/-- Result of `waitForAvailableResource`. -/
inductive WaitRes where
  | immediate
  | enrolled (rid : Nat)
deriving Repr, DecidableEq

/-- Embedding of `waitForAvailableResource` (lines 369-383). -/
def WorkerPool.waitForAvailableResource (fuel : Nat) (postError : Option Nat)
    (s : WorkerPool) : M (WorkerPool × WaitRes) :=
  if s.closed then .error .poolClosed
  else if s.idleWorkers.len ≠ 0 then .ok (s, .immediate)
  else
    let rid := s.nextId
    let s1 := { s with
      promises := (rid, PState.pending) :: s.promises
      nextId := rid + 1
      availableResourceResolvers := s.availableResourceResolvers.push rid }
    match WorkerPool.autoGrow fuel postError s1 with
    | .ok s2 => .ok (s2, .enrolled rid)
    | .error e => .error e

/-- The `for (const [task, taskInfo] of this.taskRegistry)` reject loop of
`close`. -/
def rejectAllReg (P : List (Nat × PState)) :
    List (Task × TaskInfo) → List (Nat × PState)
  | [] => P
  | (_, info) :: rest =>
    rejectAllReg (settleProm P info.resolversId (.rejectedWith .poolClosed)) rest

/-- The `while (resolvers = this.acquiringWorkerResolvers.pop())` reject
loop of `close`; `len` iterations suffice since every iteration pops. -/
def rejectQueueFuel (P : List (Nat × PState)) :
    Nat → Queue Nat → List (Nat × PState) × Queue Nat
  | 0, q => (P, q)
  | fuel + 1, q =>
    let p := q.pop
    match p.1 with
    | none => (P, p.2)
    | some rid =>
      rejectQueueFuel (settleProm P rid (.rejectedWith .poolClosed)) fuel p.2

/-- Embedding of `close` (lines 339-366).  Rejects all registered tasks, clears the
indices, terminates the workers, drains-and-rejects the pending acquire
resolvers, stops the autoshrink timer, sets `closed`.  (It never touches
`availableResourceResolvers` or the abort subscriptions.) -/
def WorkerPool.close (s : WorkerPool) : WorkerPool :=
  if s.closed then s
  else
    let P1 := rejectAllReg s.promises s.taskRegistry
    let rq := rejectQueueFuel P1 s.acquiringWorkerResolvers.len
      s.acquiringWorkerResolvers
    { s with
      promises := rq.1
      taskRegistry := []
      runningTasks := []
      taskQueue := s.taskQueue.clear
      workers := []
      idleWorkers := s.idleWorkers.clear
      runningTaskByWorker := []
      acquiredWorkers := []
      acquiringWorkerResolvers := rq.2
      closed := true }

/-- The abort closure created at the first submission of `task`
(lines 220-235); `rid` is the id of the `PromiseResolvers` it captured.
Invoked when `task.abortSignal` fires. -/
def WorkerPool.abortTask (s : WorkerPool) (task : Task) (rid : Nat) :
    WorkerPool :=
  let s1 := { s with
    taskRegistry := s.taskRegistry.map fun (p : Task × TaskInfo) =>
      if p.1 = task then (p.1, { p.2 with aborted := true }) else p }
  let s2 := { s1 with
    promises := settleProm s1.promises rid (.rejectedWith .abortException) }
  let s3 :=
    if task ∈ s2.runningTasks then
      { s2 with
        taskRegistry := s2.taskRegistry.map fun (p : Task × TaskInfo) =>
          if p.1 = task then (p.1, { p.2 with bufferByte := 1 }) else p
        runningTasks := sdel s2.runningTasks task }
    else s2
  let s4 := { s3 with taskRegistry := aremove s3.taskRegistry task }
  if task.hasAbortSignal then
    { s4 with listeners := sdel s4.listeners (task, rid) }
  else s4

/-- A message posted by a worker (the `process.exit(1)` fatal branch for any
other message type has no observable pool state and is outside the model). -/
inductive WMsg where
  | result (error : Option Nat) (data : Nat)
  | event (ev : Nat) (data : Nat)
deriving Repr, DecidableEq

/-- Tail of the `'message'` listener once a bound task was found (the code
after the `if (taskInfo && !taskInfo.meta.aborted) { ... }` block): unbind
the worker, keep it if acquired, else run the "worker became idle" path. -/
def handleMsgFall (fuel : Nat) (postError : Option Nat) (s : WorkerPool)
    (w : Nat) : M WorkerPool :=
  let s3 := { s with runningTaskByWorker := aremove s.runningTaskByWorker w }
  if w ∈ s3.acquiredWorkers then .ok s3
  else WorkerPool.onIdleWorker fuel postError s3 w

/-- The `'message'` listener installed by `addNewWorker` (lines 395-441). -/
def WorkerPool.handleMessage (fuel : Nat) (postError : Option Nat)
    (s : WorkerPool) (w : Nat) (m : WMsg) : M WorkerPool :=
  match alookup s.runningTaskByWorker w with
  | some task =>
    match alookup s.taskRegistry task with
    | some info =>
      if info.aborted then handleMsgFall fuel postError s w
      else
        match m with
        | .result error data =>
          let s1 := { s with
            promises := settleProm s.promises info.resolversId
              (match error with
                | some e => .rejectedWith (.err e)
                | none => .resolvedWith data)
            runningTasks := sdel s.runningTasks task
            taskRegistry := aremove s.taskRegistry task }
          let s2 :=
            if task.hasAbortSignal then
              { s1 with listeners := sdel s1.listeners (task, info.resolversId) }
            else s1
          handleMsgFall fuel postError s2 w
        | .event ev _data =>
          .ok (if task.hasOnEvent then
              { s with eventLog := (task.id, ev) :: s.eventLog }
            else s)
    | none => handleMsgFall fuel postError s w
  | none =>
    if w ∈ s.acquiredWorkers then .ok s
    else WorkerPool.onIdleWorker fuel postError s w

/-- The `while (idleWorker = this.idleWorkers.pop())` drain of the error
handler; `len` iterations suffice since every iteration pops. -/
def drainIdleFuel : Nat → CircularBuffer Nat → List Nat × CircularBuffer Nat
  | 0, b => ([], b)
  | fuel + 1, b =>
    let p := b.pop
    match p.1 with
    | none => ([], p.2)
    | some x =>
      let q := drainIdleFuel fuel p.2
      (x :: q.1, q.2)

def refillIdle : List Nat → CircularBuffer Nat → Option (CircularBuffer Nat)
  | [], b => some b
  | x :: xs, b =>
    match b.push x with
    | some b' => refillIdle xs b'
    | none => none

/-- The `'error'` listener installed by `addNewWorker` (lines 443-478): the
synchronous part.  (The `setImmediate` replacement — `addNewWorker` plus
resolving the token — runs in a later turn and is not part of this step;
the token registration is.)  Note it never detaches the abort listener of
the rejected task. -/
def WorkerPool.handleWorkerError (s : WorkerPool) (w : Nat) (e : Nat) :
    M WorkerPool :=
  let s1 := { s with
    workers := sdel s.workers w
    acquiredWorkers := sdel s.acquiredWorkers w }
  let dr := drainIdleFuel s1.idleWorkers.len s1.idleWorkers
  let survivors := sdel dr.1 w
  match refillIdle survivors dr.2 with
  | none => .error .bufferFull
  | some b =>
    let s2 := { s1 with idleWorkers := b }
    let s3 := { s2 with
      replacingCrashedWorkers := s2.replacingCrashedWorkers + 1 }
    match alookup s3.runningTaskByWorker w with
    | some task =>
      let s4 :=
        match alookup s3.taskRegistry task with
        | some info =>
          { s3 with
            promises := settleProm s3.promises info.resolversId
              (.rejectedWith (.err e))
            taskRegistry := aremove s3.taskRegistry task }
        | none => s3
      .ok { s4 with
        runningTasks := sdel s4.runningTasks task
        runningTaskByWorker := aremove s4.runningTaskByWorker w }
    | none => .ok s3

/-- Processing a sequence of worker messages, one control-context step each. -/
def WorkerPool.handleMessages (fuel : Nat) (postError : Option Nat) :
    WorkerPool → List (Nat × WMsg) → M WorkerPool
  | s, [] => .ok s
  | s, (w, m) :: rest =>
    match WorkerPool.handleMessage fuel postError s w m with
    | .ok s' => WorkerPool.handleMessages fuel postError s' rest
    | .error e => .error e

/-- A queue whose `length`/`head` bookkeeping is consistent (every state the
source ever builds satisfies this; see the C9 refinement relation). -/
def QueueWF {T : Type} (q : Queue T) : Prop :=
  q.head ≤ q.items.length ∧ q.length = q.items.length - q.head

instance {T : Type} (q : Queue T) : Decidable (QueueWF q) :=
  inferInstanceAs (Decidable (_ ∧ _))

/-! ### A preservation relation for the dispatch recursion

Every `runTask` performed inside the cluster
onIdleWorker → runTask → autoGrow → addNewWorker → onIdleWorker is on a task
that is still registered (`onIdleWorker` skips deregistered queue residue),
so along the whole recursion no resolver is allocated, registry entries are
only removed (never replaced), abort subscriptions are only removed, and a
rejected promise stays rejected with the same error. -/

structure StepInv (s s' : WorkerPool) : Prop where
  nextId_eq : s'.nextId = s.nextId
  reg_none : ∀ t : Task, alookup s.taskRegistry t = none →
    alookup s'.taskRegistry t = none
  reg_mono : ∀ t info, alookup s.taskRegistry t = some info →
    alookup s'.taskRegistry t = some info ∨ alookup s'.taskRegistry t = none
  listen_mono : ∀ p : Task × Nat, p ∉ s.listeners → p ∉ s'.listeners
  prom_rejected : ∀ r e, lookupProm s.promises r = some (.rejectedWith e) →
    lookupProm s'.promises r = some (.rejectedWith e)

/-- The property the dispatch cluster assumes of its `runTask` callback. -/
def RTPres (rt : WorkerPool → Task → M (WorkerPool × Nat)) : Prop :=
  ∀ s t pr, (alookup s.taskRegistry t).isSome → rt s t = .ok pr →
    StepInv s pr.1

/-! ### Concrete states used by the counterexamples and witnesses -/

/-- A freshly constructed pool shell: `minPoolSize 1`, `maxPoolSize 2`, before
any worker was added. -/
def basePool : WorkerPool := {
  minPoolSize := 1, maxPoolSize := 2,
  workers := [], idleWorkers := CircularBuffer.new 2,
  runningTaskByWorker := [], acquiringWorkerResolvers := Queue.empty,
  acquiredWorkers := [], taskQueue := Queue.empty, runningTasks := [],
  taskRegistry := [], closed := false,
  availableResourceResolvers := Queue.empty,
  replacingCrashedWorkers := 0, promises := [], nextId := 0, listeners := [],
  eventLog := [], nextWorkerId := 0 }

/-- A plain task: no abort signal, no event handler. -/
def t0 : Task := ⟨100, false, false, false, 0⟩

/-- A task whose abort signal has already fired before submission. -/
def tA : Task := ⟨101, true, true, true, 0⟩

/-- A task with a live (unfired) abort signal. -/
def tB : Task := ⟨102, true, false, false, 0⟩

/-- State of `basePool` after `addNewWorker` spawned worker 0, which went idle
(equals the state computed by `WorkerPool.addNewWorker 1 none basePool`;
see `poolIdle1_reachable`). -/
def poolIdle1 : WorkerPool := { basePool with
  workers := [0]
  idleWorkers := ⟨2, [some 0, none], 0, 1, 1⟩
  nextWorkerId := 1 }

/-- State of `poolIdle1` after `runTask` dispatched `tB` to worker 0 (equals the state
computed by `WorkerPool.runTask 1 poolIdle1 tB none none`; see
`poolRun_reachable`). -/
def poolRun : WorkerPool := { basePool with
  workers := [0]
  idleWorkers := ⟨2, [some 0, none], 1, 1, 0⟩
  runningTaskByWorker := [(0, tB)]
  runningTasks := [tB]
  taskRegistry := [(tB, ⟨0, false, 0⟩)]
  promises := [(0, PState.pending)]
  nextId := 1
  listeners := [(tB, 0)]
  nextWorkerId := 1 }

/-- State of `poolRun` after `tB`'s abort closure fired. -/
def poolAborted : WorkerPool := WorkerPool.abortTask poolRun tB 0

/-- State of `poolRun` with one pending `acquireWorker` resolver (id 10) and one
pending `waitForAvailableResource` resolver (id 11). -/
def poolC2 : WorkerPool := { poolRun with
  acquiringWorkerResolvers := Queue.empty.push 10
  availableResourceResolvers := Queue.empty.push 11
  promises := poolRun.promises ++ [(10, PState.pending), (11, PState.pending)]
  nextId := 12 }

/-- State of `poolAborted` after the worker's late RESULT message was processed. -/
def poolAfterLateResult : WorkerPool :=
  (WorkerPool.handleMessages 2 none poolAborted
    [(0, WMsg.result none 7)]).toOption.getD basePool

/-- State of `poolRun` after worker 0 posted a successful RESULT for `tB`. -/
def poolAfterResult : WorkerPool :=
  (WorkerPool.handleMessage 1 none poolRun 0
    (WMsg.result none 7)).toOption.getD basePool

/-- State of `poolIdle1` after the pre-aborted task `tA` was submitted (fast path). -/
def poolFastAbort : WorkerPool × Nat :=
  (WorkerPool.runTask 1 poolIdle1 tA none none).toOption.getD (basePool, 0)

/-- State of `poolIdle1` after submitting `tB` with a synchronous post failure. -/
def poolDispatchFail : WorkerPool × Nat :=
  (WorkerPool.runTask 1 poolIdle1 tB none (some 42)).toOption.getD (basePool, 0)

/-- State of `poolRun` after worker 0 crashed with error 5. -/
def poolAfterCrash : WorkerPool :=
  (WorkerPool.handleWorkerError poolRun 0 5).toOption.getD basePool

/-- State of `poolRun` after `tB` was re-submitted while registered: the pool queues it
and the autoGrow/addNewWorker/onIdleWorker chain dispatches it to the freshly
spawned worker 1. -/
def poolResubmit : WorkerPool × Nat :=
  (WorkerPool.runTask 3 poolRun tB none none).toOption.getD (basePool, 0)

/-- State of `poolRun` after an `acquireWorker` call that found no idle worker. -/
def poolAcquirePending : WorkerPool × AcqRes :=
  (WorkerPool.acquireWorker 1 none poolRun).toOption.getD
    (basePool, AcqRes.granted 0)

/-- State of `poolAborted` after worker 0 posted an EVENT for the aborted task. -/
def poolEventAfterAbort : WorkerPool :=
  (WorkerPool.handleMessage 1 none poolAborted 0
    (WMsg.event 1 1)).toOption.getD basePool

/-! ## Theorems -/

/-- The concrete states above are reachable through the embedded operations. -/
theorem poolIdle1_reachable :
    WorkerPool.addNewWorker 1 none basePool = .ok poolIdle1 ∧
    WorkerPool.runTask 1 poolIdle1 tB none none = .ok (poolRun, 0) := by
  decide

/-! ### Association list, set and promise-environment lemmas -/

theorem alookup_aremove {A B : Type} [DecidableEq A] (m : List (A × B))
    (k t : A) : alookup (aremove m k) t = if t = k then none else alookup m t := by
  induction m with
  | nil => by_cases h : t = k <;> simp [alookup, aremove, h]
  | cons p m ih =>
    simp only [aremove]
    by_cases hpk : p.1 = k
    · rw [if_pos hpk, ih]
      by_cases htk : t = k
      · simp [htk]
      · have hpt : ¬ p.1 = t := by cc
        simp [htk, alookup, hpt]
    · rw [if_neg hpk]
      simp only [alookup]
      by_cases hpt : p.1 = t
      · have htk : ¬ t = k := by cc
        simp [hpt, htk]
      · simp [hpt, ih]

theorem alookup_aset_self {A B : Type} [DecidableEq A] (m : List (A × B))
    (k : A) (v : B) : alookup (aset m k v) k = some v := by
  simp [aset, alookup]

theorem alookup_aset_ne {A B : Type} [DecidableEq A] (m : List (A × B))
    (k : A) (v : B) (t : A) (h : ¬ t = k) :
    alookup (aset m k v) t = alookup m t := by
  simp only [aset, alookup]
  rw [if_neg (by cc), alookup_aremove, if_neg h]

theorem not_mem_sdel {A : Type} [DecidableEq A] {l : List A} {y : A} (x : A)
    (h : y ∉ l) : y ∉ sdel l x := by
  induction l with
  | nil => simp [sdel]
  | cons a l ih =>
    simp only [List.mem_cons, not_or] at h
    simp only [sdel]
    by_cases hax : a = x
    · simp only [if_pos hax]
      exact ih h.2
    · simp only [if_neg hax, List.mem_cons, not_or]
      exact ⟨h.1, ih h.2⟩

theorem not_mem_sdel_self {A : Type} [DecidableEq A] (l : List A) (x : A) :
    x ∉ sdel l x := by
  induction l with
  | nil => simp [sdel]
  | cons a l ih =>
    simp only [sdel]
    by_cases hax : a = x
    · simp only [if_pos hax]
      exact ih
    · simp only [if_neg hax, List.mem_cons, not_or]
      exact ⟨by cc, ih⟩

theorem lookupProm_settleProm (P : List (Nat × PState)) (id : Nat) (o : PState)
    (r : Nat) :
    lookupProm (settleProm P id o) r =
      if r = id then (lookupProm P r).map (fun p => p.settle o)
      else lookupProm P r := by
  induction P with
  | nil => by_cases h : r = id <;> simp [lookupProm, settleProm, h]
  | cons q P ih =>
    simp only [settleProm]
    by_cases hq : q.1 = id
    · rw [if_pos hq]
      simp only [lookupProm]
      by_cases hqr : q.1 = r
      · have hr : r = id := by cc
        simp [hqr, hr]
      · have hr' : ¬ r = id := by cc
        simp [hqr, ih, hr']
    · rw [if_neg hq]
      simp only [lookupProm]
      by_cases hqr : q.1 = r
      · have hr' : ¬ r = id := by cc
        simp [hqr, hr']
      · simp [hqr, ih]

theorem lookupProm_settleProm_rejected {P : List (Nat × PState)} {r : Nat}
    {e : ErrVal} (id : Nat) (o : PState)
    (h : lookupProm P r = some (.rejectedWith e)) :
    lookupProm (settleProm P id o) r = some (.rejectedWith e) := by
  rw [lookupProm_settleProm]
  by_cases hr : r = id
  · subst hr
    simp [h, PState.settle]
  · simp [hr, h]

theorem lookupProm_settleProm_pending {P : List (Nat × PState)} {r : Nat}
    (o : PState) (h : lookupProm P r = some .pending) :
    lookupProm (settleProm P r o) r = some o := by
  rw [lookupProm_settleProm]
  simp [h, PState.settle]

theorem stepInv_refl (s : WorkerPool) : StepInv s s :=
  ⟨rfl, fun _ h => h, fun _ _ h => .inl h, fun _ h => h, fun _ _ h => h⟩

theorem StepInv.comp {s1 s2 s3 : WorkerPool} (a : StepInv s1 s2)
    (b : StepInv s2 s3) : StepInv s1 s3 where
  nextId_eq := b.nextId_eq.trans a.nextId_eq
  reg_none t h := b.reg_none t (a.reg_none t h)
  reg_mono t info h :=
    match a.reg_mono t info h with
    | .inl h' => b.reg_mono t info h'
    | .inr h' => .inr (b.reg_none t h')
  listen_mono p h := b.listen_mono p (a.listen_mono p h)
  prom_rejected r e h := b.prom_rejected r e (a.prom_rejected r e h)

/-- Build a `StepInv` for a state whose registry/listeners/promises changed by
at most one removal / one removal / one settle. -/
theorem stepInv_build {s s' : WorkerPool}
    (hn : s'.nextId = s.nextId)
    (hr : s'.taskRegistry = s.taskRegistry ∨
      ∃ k, s'.taskRegistry = aremove s.taskRegistry k)
    (hl : s'.listeners = s.listeners ∨ ∃ p, s'.listeners = sdel s.listeners p)
    (hp : s'.promises = s.promises ∨
      ∃ id o, s'.promises = settleProm s.promises id o) : StepInv s s' := by
  constructor
  · exact hn
  · intro t h
    rcases hr with h' | ⟨k, h'⟩ <;> rw [h']
    · exact h
    · rw [alookup_aremove]
      by_cases htk : t = k <;> simp [htk, h]
  · intro t info h
    rcases hr with h' | ⟨k, h'⟩
    · rw [h']
      exact .inl h
    · by_cases htk : t = k
      · refine .inr ?_
        rw [h', alookup_aremove, if_pos htk]
      · refine .inl ?_
        rw [h', alookup_aremove, if_neg htk]
        exact h
  · intro p h
    rcases hl with h' | ⟨p0, h'⟩ <;> rw [h']
    · exact h
    · exact not_mem_sdel p0 h
  · intro r e h
    rcases hp with h' | ⟨id, o, h'⟩ <;> rw [h']
    · exact h
    · exact lookupProm_settleProm_rejected id o h

theorem popRegistered_isSome {fuel : Nat} {q : Queue Task}
    {reg : List (Task × TaskInfo)} {t : Task}
    (h : (popRegistered fuel q reg).1 = some t) :
    (alookup reg t).isSome := by
  induction fuel generalizing q with
  | zero => simp [popRegistered] at h
  | succ fuel ih =>
    simp only [popRegistered] at h
    split at h
    · simp at h
    · split at h
      · rename_i hsome
        simp at h
        rw [← h]
        exact hsome
      · exact ih h

theorem RTPres.apply {rt : WorkerPool → Task → M (WorkerPool × Nat)}
    (hrt : RTPres rt) {s1 : WorkerPool} {t : Task} {pr : WorkerPool × Nat}
    (hrun : rt s1 t = .ok pr) (hreg : (alookup s1.taskRegistry t).isSome) :
    StepInv s1 pr.1 :=
  hrt s1 t pr hreg hrun

theorem onIdleWorkerGo_stepInv {rt : WorkerPool → Task → M (WorkerPool × Nat)}
    (hrt : RTPres rt) (s : WorkerPool) (w : Nat) (s' : WorkerPool)
    (h : onIdleWorkerGo rt s w = .ok s') : StepInv s s' := by
  simp only [onIdleWorkerGo] at h
  split at h
  · cases h
    exact stepInv_refl _
  · split at h
    · cases h
      exact stepInv_build rfl (.inl rfl) (.inl rfl) (.inr ⟨_, _, rfl⟩)
    · split at h
      · simp at h
      · split at h
        · rename_i t hpopt
          split at h
          · rename_i pr hrun
            cases h
            have hmid := hrt.apply hrun (popRegistered_isSome hpopt)
            refine StepInv.comp ?_ hmid
            exact stepInv_build rfl (.inl rfl) (.inl rfl) (.inl rfl)
          · simp at h
        · split at h
          · split at h
            · cases h
              exact stepInv_build rfl (.inl rfl) (.inl rfl) (.inr ⟨_, _, rfl⟩)
            · cases h
              exact stepInv_build rfl (.inl rfl) (.inl rfl) (.inl rfl)
          · cases h
            exact stepInv_build rfl (.inl rfl) (.inl rfl) (.inl rfl)

theorem addNewWorkerGo_stepInv {rt : WorkerPool → Task → M (WorkerPool × Nat)}
    (hrt : RTPres rt) (s s' : WorkerPool)
    (h : addNewWorkerGo rt s = .ok s') : StepInv s s' := by
  simp only [addNewWorkerGo] at h
  split at h
  · cases h
    exact stepInv_refl _
  · have hmid := onIdleWorkerGo_stepInv hrt _ _ _ h
    refine StepInv.comp ?_ hmid
    exact stepInv_build rfl (.inl rfl) (.inl rfl) (.inl rfl)

theorem autoGrowGo_stepInv {rt : WorkerPool → Task → M (WorkerPool × Nat)}
    (hrt : RTPres rt) (s s' : WorkerPool)
    (h : autoGrowGo rt s = .ok s') : StepInv s s' := by
  simp only [autoGrowGo] at h
  split at h
  · cases h
    exact stepInv_refl _
  · split at h
    · exact addNewWorkerGo_stepInv hrt _ _ h
    · cases h
      exact stepInv_refl _

theorem runTaskGo_stepInv {auto : WorkerPool → M WorkerPool}
    (hauto : ∀ s s', auto s = .ok s' → StepInv s s')
    (s : WorkerPool) (t : Task) (acq postErr : Option Nat)
    (pr : WorkerPool × Nat) (hreg : (alookup s.taskRegistry t).isSome)
    (h : runTaskGo auto s t acq postErr = .ok pr) : StepInv s pr.1 := by
  obtain ⟨info, hinfo⟩ := Option.isSome_iff_exists.mp hreg
  cases acq with
  | some w =>
    simp only [runTaskGo, hinfo] at h
    split at h
    · simp at h
    · split at h
      · cases h
        exact stepInv_build rfl (.inr ⟨_, rfl⟩) (.inl rfl) (.inr ⟨_, _, rfl⟩)
      · split at h
        · split at h <;> cases h <;>
            exact stepInv_build rfl (.inl rfl) (.inl rfl) (.inl rfl)
        · cases h
          exact stepInv_build rfl (.inr ⟨_, rfl⟩) (.inl rfl) (.inr ⟨_, _, rfl⟩)
  | none =>
    simp only [runTaskGo, hinfo] at h
    split at h
    · simp at h
    · split at h
      · cases h
        exact stepInv_build rfl (.inr ⟨_, rfl⟩) (.inl rfl) (.inr ⟨_, _, rfl⟩)
      · split at h
        · split at h
          · split at h <;> cases h <;>
              exact stepInv_build rfl (.inl rfl) (.inl rfl) (.inl rfl)
          · cases h
            exact stepInv_build rfl (.inr ⟨_, rfl⟩) (.inl rfl) (.inr ⟨_, _, rfl⟩)
        · split at h
          · rename_i s2 hauto_eq
            cases h
            have hmid := hauto _ _ hauto_eq
            refine StepInv.comp ?_ hmid
            exact stepInv_build rfl (.inl rfl) (.inl rfl) (.inl rfl)
          · simp at h

theorem runTask_stepInv (pe : Option Nat) :
    ∀ (fuel : Nat) (acq : Option Nat) (s : WorkerPool) (t : Task)
      (pr : WorkerPool × Nat), (alookup s.taskRegistry t).isSome →
      WorkerPool.runTask fuel s t acq pe = .ok pr → StepInv s pr.1 := by
  intro fuel
  induction fuel with
  | zero =>
    intro acq s t pr _ h
    simp [WorkerPool.runTask] at h
  | succ fuel ih =>
    intro acq s t pr hreg h
    simp only [WorkerPool.runTask] at h
    refine runTaskGo_stepInv ?_ _ _ _ _ _ hreg h
    intro s1 s1' hauto
    refine autoGrowGo_stepInv ?_ _ _ hauto
    intro s2 t2 pr2 hreg2 hrun2
    exact ih none s2 t2 pr2 hreg2 hrun2

theorem runTask_rtPres (fuel : Nat) (pe : Option Nat) :
    RTPres (fun s t => WorkerPool.runTask fuel s t none pe) :=
  fun s t pr hreg hrun => runTask_stepInv pe fuel none s t pr hreg hrun

theorem handleMsgFall_stepInv (fuel : Nat) (pe : Option Nat) (s : WorkerPool)
    (w : Nat) (s' : WorkerPool)
    (h : handleMsgFall fuel pe s w = .ok s') : StepInv s s' := by
  simp only [handleMsgFall, WorkerPool.onIdleWorker] at h
  split at h
  · cases h
    exact stepInv_build rfl (.inl rfl) (.inl rfl) (.inl rfl)
  · have hmid := onIdleWorkerGo_stepInv (runTask_rtPres fuel pe) _ _ _ h
    refine StepInv.comp ?_ hmid
    exact stepInv_build rfl (.inl rfl) (.inl rfl) (.inl rfl)

theorem handleMessage_stepInv (fuel : Nat) (pe : Option Nat) (s : WorkerPool)
    (w : Nat) (m : WMsg) (s' : WorkerPool)
    (h : WorkerPool.handleMessage fuel pe s w m = .ok s') : StepInv s s' := by
  simp only [WorkerPool.handleMessage] at h
  split at h
  · split at h
    · split at h
      · exact handleMsgFall_stepInv fuel pe _ _ _ h
      · split at h
        · -- RESULT (with and without an abort-signal subscription to remove)
          split at h <;>
            refine StepInv.comp ?_ (handleMsgFall_stepInv fuel pe _ _ _ h) <;>
            first
            | exact stepInv_build rfl (.inr ⟨_, rfl⟩) (.inr ⟨_, rfl⟩)
                (.inr ⟨_, _, rfl⟩)
            | exact stepInv_build rfl (.inr ⟨_, rfl⟩) (.inl rfl)
                (.inr ⟨_, _, rfl⟩)
        · -- EVENT
          split at h <;> cases h <;>
            exact stepInv_build rfl (.inl rfl) (.inl rfl) (.inl rfl)
    · exact handleMsgFall_stepInv fuel pe _ _ _ h
  · simp only [WorkerPool.onIdleWorker] at h
    split at h
    · cases h
      exact stepInv_refl _
    · exact onIdleWorkerGo_stepInv (runTask_rtPres fuel pe) _ _ _ h

theorem handleMessages_stepInv (fuel : Nat) (pe : Option Nat) :
    ∀ (msgs : List (Nat × WMsg)) (s s' : WorkerPool),
      WorkerPool.handleMessages fuel pe s msgs = .ok s' → StepInv s s' := by
  intro msgs
  induction msgs with
  | nil =>
    intro s s' h
    simp only [WorkerPool.handleMessages] at h
    cases h
    exact stepInv_refl _
  | cons wm rest ih =>
    intro s s' h
    simp only [WorkerPool.handleMessages] at h
    split at h
    · rename_i s1 h1
      exact (handleMessage_stepInv fuel pe s wm.1 wm.2 s1 h1).comp (ih _ _ h)
    · simp at h

/-- The promise environment after the abort closure ran. -/
theorem abortTask_promises (s : WorkerPool) (t : Task) (rid : Nat) :
    (WorkerPool.abortTask s t rid).promises =
      settleProm s.promises rid (.rejectedWith .abortException) := by
  simp only [WorkerPool.abortTask]
  split <;> split <;> rfl

/-- The abort closure removes its own subscription. -/
theorem abortTask_listener_removed (s : WorkerPool) (t : Task) (rid : Nat)
    (hsig : t.hasAbortSignal = true) :
    (t, rid) ∉ (WorkerPool.abortTask s t rid).listeners := by
  simp only [WorkerPool.abortTask]
  rw [if_pos hsig]
  exact not_mem_sdel_self _ _

/-! ## Claim C9 — the optimized Queue refines the naive list FIFO -/

theorem queueAbs_empty {T : Type} : QueueAbs (Queue.empty : Queue T) [] := by
  simp [QueueAbs, Queue.empty]

theorem QueueAbs.length_eq {T : Type} {q : Queue T} {l : List T}
    (h : QueueAbs q l) : q.length = l.length := by
  obtain ⟨h1, h2, h3⟩ := h
  rw [h3, ← h2, List.length_drop]

theorem QueueAbs.push {T : Type} {q : Queue T} {l : List T}
    (h : QueueAbs q l) (x : T) : QueueAbs (q.push x) (l ++ [x]) := by
  obtain ⟨h1, h2, h3⟩ := h
  refine ⟨?_, ?_, ?_⟩
  · simp [Queue.push]
    omega
  · simpa [Queue.push, List.drop_append_of_le_length h1] using h2
  · simp [Queue.push]

/-- Unfolding of `Queue.pop` on a non-empty queue. -/
theorem Queue.pop_eq_of_ne {T : Type} (q : Queue T) (h0 : ¬ q.length = 0) :
    q.pop = if q.items.length / 2 ≤ q.head
      then (q.items.get? q.head,
        ⟨q.items.drop (q.head + 1), (q.items.drop (q.head + 1)).length - 0, 0⟩)
      else (q.items.get? q.head,
        ⟨q.items, q.items.length - (q.head + 1), q.head + 1⟩) := by
  rw [Queue.pop, if_neg h0]

theorem QueueAbs.peek_eq {T : Type} {q : Queue T} {l : List T}
    (h : QueueAbs q l) : q.peek = l.head? := by
  have hlen := h.length_eq
  obtain ⟨h1, h2, h3⟩ := h
  by_cases h0 : q.length = 0
  · have hl : l = [] := List.length_eq_zero.mp (by omega)
    simp [Queue.peek, h0, hl]
  · rw [Queue.peek, if_neg h0, List.get?_eq_getElem?, ← List.head?_drop, h2]

theorem QueueAbs.len_eq {T : Type} {q : Queue T} {l : List T}
    (h : QueueAbs q l) : q.len = l.length := h.length_eq

theorem QueueAbs.pop_fst {T : Type} {q : Queue T} {l : List T}
    (h : QueueAbs q l) : (q.pop).1 = l.head? := by
  have hlen := h.length_eq
  obtain ⟨h1, h2, h3⟩ := h
  by_cases h0 : q.length = 0
  · have hl : l = [] := List.length_eq_zero.mp (by omega)
    simp [Queue.pop, h0, hl]
  · rw [Queue.pop_eq_of_ne q h0]
    by_cases hc : q.items.length / 2 ≤ q.head <;>
      simp [hc, List.get?_eq_getElem?, ← List.head?_drop, h2]

theorem QueueAbs.pop_snd {T : Type} {q : Queue T} {l : List T}
    (h : QueueAbs q l) : QueueAbs (q.pop).2 l.tail := by
  have hlen := h.length_eq
  obtain ⟨h1, h2, h3⟩ := h
  by_cases h0 : q.length = 0
  · have hl : l = [] := List.length_eq_zero.mp (by omega)
    simp only [Queue.pop, h0, if_pos rfl]
    exact ⟨h1, by simp [h2, hl], h3⟩
  · have hlt : q.head < q.items.length := by
      rcases Nat.lt_or_ge q.head q.items.length with h' | h'
      · exact h'
      · exfalso
        have hnil : q.items.drop q.head = [] := by
          rw [List.drop_eq_nil_iff]
          omega
        rw [hnil] at h2
        omega
    have htail : q.items.drop (q.head + 1) = l.tail := by
      rw [← List.tail_drop, h2]
    rw [Queue.pop_eq_of_ne q h0]
    by_cases hc : q.items.length / 2 ≤ q.head
    · rw [if_pos hc]
      exact ⟨Nat.zero_le _, by simpa using htail, rfl⟩
    · rw [if_neg hc]
      exact ⟨by dsimp only; omega, htail, rfl⟩

theorem run_eq_of_abs {T : Type} {q : Queue T} {l : List T}
    (h : QueueAbs q l) : ∀ ops : List (QOp T), q.run ops = ListFifo.run l ops := by
  intro ops
  induction ops generalizing q l with
  | nil => rfl
  | cons op ops ih =>
    cases op with
    | push x =>
      simpa [Queue.run, ListFifo.run, Queue.step, ListFifo.step, ListFifo.push]
        using ih (h.push x)
    | pop =>
      have h1 := h.pop_fst
      have h2 := h.pop_snd
      have hout1 : (ListFifo.pop l).1 = l.head? := by cases l <;> simp [ListFifo.pop]
      have hout2 : (ListFifo.pop l).2 = l.tail := by cases l <;> simp [ListFifo.pop]
      simp only [Queue.run, ListFifo.run, Queue.step, ListFifo.step]
      rw [h1, ← hout1, hout2, ih h2]
    | peek =>
      have hpk : ListFifo.peek l = l.head? := rfl
      simpa [Queue.run, ListFifo.run, Queue.step, ListFifo.step, hpk, h.peek_eq]
        using ih h
    | len =>
      simpa [Queue.run, ListFifo.run, Queue.step, ListFifo.step, ListFifo.len,
        h.len_eq] using ih h

/-- C9: the optimized `Queue` (head index with occasional slice compaction) is
observationally equal to the naive list FIFO: every sequence of
push/pop/peek/len operations, run from the empty state on both, produces the
same outputs (so pop yields items in submission order and len counts the
pushed-but-not-popped items). -/
theorem C9_queue_refines_list_fifo {T : Type} (ops : List (QOp T)) :
    (Queue.empty : Queue T).run ops = ListFifo.run ListFifo.empty ops :=
  run_eq_of_abs queueAbs_empty ops

/-! ## Claim C1 — priority pop minimality -/

/-- C1: "For every sequence of pushes and pops on the PriorityQueue, pop
returns an element whose comparator key is minimal among all elements
currently stored."  This FAILS on the source: `siftDown` never compares the
two children with each other, so when both children beat the sifted item the
right child is promoted even when the left child is smaller.  Concretely,
after `push 1; push 2; push 3; push 4` the first `pop` (correctly) yields 1
but leaves the array `[3, 2, 4]`, and the second `pop` yields 3 although 2 —
with `pqcompare 2 3 < 0`, i.e. strictly more prioritized — is still stored.
This theorem evaluates the embedded source at that failing input. -/
theorem C1_pop_not_minimal :
    (((((PriorityQueue.empty.push 1).push 2).push 3).push 4).pop).1 = some 1 ∧
    ((((((PriorityQueue.empty.push 1).push 2).push 3).push 4).pop).2).items = [3, 2, 4] ∧
    (((((((PriorityQueue.empty.push 1).push 2).push 3).push 4).pop).2).pop).1 = some 3 ∧
    (2 : Int) ∈ (((((PriorityQueue.empty.push 1).push 2).push 3).push 4).pop).2.items ∧
    pqcompare 2 3 < 0 := by
  decide

/-! ## Claim C10 — pop/peek on empty containers are total -/

/-- C10: pop and peek on an empty `Queue`, `PriorityQueue`, or
`CircularBuffer` (any state whose `len()` is 0) return `undefined` (here
`none`), raise nothing, and leave the container unchanged. -/
theorem C10_empty_pop_peek_total {T : Type} (q : Queue T) (pq : PriorityQueue)
    (b : CircularBuffer T) (hq : q.len = 0) (hpq : pq.len = 0) (hb : b.len = 0) :
    q.pop = (none, q) ∧ q.peek = none ∧
    pq.pop = (none, pq) ∧ pq.peek = none ∧
    b.pop = (none, b) ∧ b.peek = none := by
  refine ⟨?_, ?_, ?_, ?_, ?_, ?_⟩ <;>
    simp [Queue.pop, Queue.peek, PriorityQueue.pop, PriorityQueue.peek,
      CircularBuffer.pop, CircularBuffer.peek, Queue.len, PriorityQueue.len,
      CircularBuffer.len] at * <;>
    simp [hq, hpq, hb]

/-- Witness for C10 at concrete empty containers. -/
theorem C10_empty_pop_peek_total_witness :
    (Queue.empty : Queue Nat).pop = (none, Queue.empty) ∧
    (Queue.empty : Queue Nat).peek = none ∧
    PriorityQueue.empty.pop = (none, PriorityQueue.empty) ∧
    PriorityQueue.empty.peek = none ∧
    (CircularBuffer.new 3 : CircularBuffer Nat).pop = (none, CircularBuffer.new 3) ∧
    (CircularBuffer.new 3 : CircularBuffer Nat).peek = none :=
  C10_empty_pop_peek_total Queue.empty PriorityQueue.empty (CircularBuffer.new 3)
    rfl rfl rfl


/-! ## Claim C3 — abort monotonicity -/

/-- C3: once a task's abort closure has run (setting its `aborted` flag,
rejecting the completion with `Aborted` and deregistering it), no later
worker message — RESULT or EVENT, in any number, from any worker — resolves
or rejects the caller-visible completion: it remains rejected with
`Aborted`. -/
theorem C3_abort_monotonicity (fuel : Nat) (pe : Option Nat) (s : WorkerPool)
    (t : Task) (rid : Nat) (msgs : List (Nat × WMsg)) (s' : WorkerPool)
    (hpend : lookupProm s.promises rid = some PState.pending)
    (hrun : WorkerPool.handleMessages fuel pe (WorkerPool.abortTask s t rid)
      msgs = .ok s') :
    lookupProm (WorkerPool.abortTask s t rid).promises rid =
      some (PState.rejectedWith ErrVal.abortException) ∧
    lookupProm s'.promises rid =
      some (PState.rejectedWith ErrVal.abortException) := by
  have h1 : lookupProm (WorkerPool.abortTask s t rid).promises rid =
      some (PState.rejectedWith ErrVal.abortException) := by
    rw [abortTask_promises]
    exact lookupProm_settleProm_pending _ hpend
  exact ⟨h1, (handleMessages_stepInv fuel pe msgs _ s' hrun).prom_rejected
    rid .abortException h1⟩

/-- Witness for C3: abort `tB` while it runs on worker 0, then let the
worker's RESULT for it arrive; the completion stays rejected with
`Aborted`. -/
theorem C3_abort_monotonicity_witness :
    lookupProm poolRun.promises 0 = some PState.pending ∧
    (lookupProm (WorkerPool.abortTask poolRun tB 0).promises 0 =
      some (PState.rejectedWith ErrVal.abortException) ∧
     lookupProm poolAfterLateResult.promises 0 =
      some (PState.rejectedWith ErrVal.abortException)) :=
  ⟨by decide, C3_abort_monotonicity 2 none poolRun tB 0 [(0, WMsg.result none 7)]
    poolAfterLateResult (by decide) (by decide)⟩

/-! ## Claim C7 — EVENT messages are frame-preserving -/

/-- C7 counterexample: the claim quantifies over *every* EVENT message, but
an EVENT arriving for a worker whose bound task has been deregistered (here:
aborted) falls through the handler, unbinds the worker and runs the idle
path: `runningTaskByWorker` loses the binding and `idleWorkers` gains the
worker, so the core state is NOT the same after handling. -/
theorem C7_event_after_abort_mutates :
    ((WorkerPool.handleMessage 1 none poolAborted 0
        (WMsg.event 1 1)).map fun s' =>
      (alookup s'.runningTaskByWorker 0, s'.idleWorkers.len)) =
      .ok (none, 1) ∧
    alookup poolAborted.runningTaskByWorker 0 = some tB ∧
    poolAborted.idleWorkers.len = 0 := by
  decide

/-- C7 (amended): for every EVENT message arriving for a worker whose bound
task is still registered and not aborted, the handler at most invokes
`task.onEvent` and alters no core state — `workers`, `idleWorkers`,
`acquiredWorkers`, `runningTasks`, `runningTaskByWorker`, `taskQueue`,
`taskRegistry` (and the promises and abort subscriptions) are the same after
handling as before.  When the bound task is missing, deregistered or aborted
the handler instead unbinds the worker and runs the idle path
(`C7_event_after_abort_mutates`). -/
theorem C7_event_frame (fuel : Nat) (pe : Option Nat) (s : WorkerPool)
    (w : Nat) (ev : Nat) (d : Nat) (t : Task) (info : TaskInfo)
    (hw : alookup s.runningTaskByWorker w = some t)
    (hreg : alookup s.taskRegistry t = some info)
    (hab : info.aborted = false) :
    ∃ s', WorkerPool.handleMessage fuel pe s w (.event ev d) = .ok s' ∧
      s'.workers = s.workers ∧ s'.idleWorkers = s.idleWorkers ∧
      s'.acquiredWorkers = s.acquiredWorkers ∧
      s'.runningTasks = s.runningTasks ∧
      s'.runningTaskByWorker = s.runningTaskByWorker ∧
      s'.taskQueue = s.taskQueue ∧ s'.taskRegistry = s.taskRegistry ∧
      s'.promises = s.promises ∧ s'.listeners = s.listeners := by
  simp only [WorkerPool.handleMessage, hw, hreg]
  rw [if_neg (by simp [hab])]
  by_cases hoe : t.hasOnEvent = true
  · rw [if_pos hoe]
    exact ⟨_, rfl, rfl, rfl, rfl, rfl, rfl, rfl, rfl, rfl, rfl⟩
  · rw [if_neg hoe]
    exact ⟨_, rfl, rfl, rfl, rfl, rfl, rfl, rfl, rfl, rfl, rfl⟩

/-- Witness for C7 at `poolRun`. -/
theorem C7_event_frame_witness :
    ∃ s', WorkerPool.handleMessage 1 none poolRun 0
        (.event 1 3) = .ok s' ∧
      s'.workers = poolRun.workers ∧ s'.idleWorkers = poolRun.idleWorkers ∧
      s'.acquiredWorkers = poolRun.acquiredWorkers ∧
      s'.runningTasks = poolRun.runningTasks ∧
      s'.runningTaskByWorker = poolRun.runningTaskByWorker ∧
      s'.taskQueue = poolRun.taskQueue ∧
      s'.taskRegistry = poolRun.taskRegistry ∧
      s'.promises = poolRun.promises ∧ s'.listeners = poolRun.listeners :=
  C7_event_frame 1 none poolRun 0 1 3 tB ⟨0, false, 0⟩
    (by decide) (by decide) (by decide)

/-! ## Claim C8 — runTask is idempotent on re-submission -/

/-- On a registered task every exit of `runTask` hands back the stored
resolvers id. -/
theorem runTaskGo_ret_id {auto : WorkerPool → M WorkerPool} {s : WorkerPool}
    {t : Task} {acq postErr : Option Nat} {pr : WorkerPool × Nat}
    {info : TaskInfo} (hreg : alookup s.taskRegistry t = some info)
    (h : runTaskGo auto s t acq postErr = .ok pr) : pr.2 = info.resolversId := by
  cases acq with
  | some w =>
    simp only [runTaskGo, hreg] at h
    split at h
    · simp at h
    · split at h
      · cases h
        rfl
      · split at h
        · split at h <;> cases h <;> rfl
        · cases h
          rfl
  | none =>
    simp only [runTaskGo, hreg] at h
    split at h
    · simp at h
    · split at h
      · cases h
        rfl
      · split at h
        · split at h
          · split at h <;> cases h <;> rfl
          · cases h
            rfl
        · split at h
          · cases h
            rfl
          · simp at h

/-- C8: if `runTask(t)` is called while `t` is already registered, no new
per-task state is allocated (the resolver-allocation counter is unchanged,
and the registry entry is never replaced — at most removed by a terminal
transition), and the promise returned is the completion handle created at the
first submission. -/
theorem C8_runTask_idempotent (fuel : Nat) (pe acq : Option Nat)
    (s : WorkerPool) (t : Task) (info : TaskInfo) (pr : WorkerPool × Nat)
    (hreg : alookup s.taskRegistry t = some info)
    (hrun : WorkerPool.runTask (fuel + 1) s t acq pe = .ok pr) :
    pr.2 = info.resolversId ∧ pr.1.nextId = s.nextId ∧
    (alookup pr.1.taskRegistry t = some info ∨
      alookup pr.1.taskRegistry t = none) := by
  have hinv := runTask_stepInv pe (fuel + 1) acq s t pr (by simp [hreg]) hrun
  simp only [WorkerPool.runTask] at hrun
  exact ⟨runTaskGo_ret_id hreg hrun, hinv.nextId_eq, hinv.reg_mono t info hreg⟩

/-- Witness for C8: re-submitting the already-registered `tB` (queued, then
dispatched through autoGrow to the freshly spawned worker) returns the
original promise id 0 and allocates nothing. -/
theorem C8_runTask_idempotent_witness :
    poolResubmit.2 = (0 : Nat) ∧ poolResubmit.1.nextId = poolRun.nextId ∧
    (alookup poolResubmit.1.taskRegistry tB = some ⟨0, false, 0⟩ ∨
      alookup poolResubmit.1.taskRegistry tB = none) :=
  C8_runTask_idempotent 2 none none poolRun tB ⟨0, false, 0⟩ poolResubmit
    (by decide) (by decide)

/-! ## Claim C4 — synchronous post failure -/

/-- C4 counterexample: when posting the TASK message fails synchronously the
catch block rejects the completion and removes the task from all indices,
but it never pushes the popped worker back into `idleWorkers`: from the
one-idle-worker pool, after the failed dispatch the idle ring is empty (the
worker is leaked — it is still in `workers` but serves nobody), so the claim
"the worker is returned to the idle set" is false. -/
theorem C4_post_failure_worker_not_returned :
    WorkerPool.runTask 1 poolIdle1 tB none (some 42) = .ok poolDispatchFail ∧
    poolDispatchFail.2 = 0 ∧
    lookupProm poolDispatchFail.1.promises 0 =
      some (PState.rejectedWith (ErrVal.err 42)) ∧
    poolDispatchFail.1.runningTasks = [] ∧
    alookup poolDispatchFail.1.taskRegistry tB = none ∧
    alookup poolDispatchFail.1.runningTaskByWorker 0 = none ∧
    poolDispatchFail.1.workers = [0] ∧
    poolDispatchFail.1.idleWorkers.len = 0 ∧
    poolIdle1.idleWorkers.len = 1 ∧ poolIdle1.closed = false := by
  decide

/-- C4 (amended): if posting the TASK message to the idle worker chosen for a
fresh task fails synchronously, the completion is rejected with the
underlying error and the task is removed from `runningTasks`, the registry
and `runningTaskByWorker` — but the worker is NOT returned to the idle set:
`idleWorkers` stays as after the pop (the worker remains only in
`workers`). -/
theorem C4_post_failure (fuel : Nat) (s : WorkerPool) (t : Task) (e : Nat)
    (w : Nat) (idle' : CircularBuffer Nat)
    (hnc : s.closed = false)
    (hreg : alookup s.taskRegistry t = none)
    (hsig : ¬ (t.hasAbortSignal = true ∧ t.signalAborted = true))
    (hpop : s.idleWorkers.pop = (some w, idle')) :
    ∃ s', WorkerPool.runTask (fuel + 1) s t none (some e) = .ok (s', s.nextId) ∧
      lookupProm s'.promises s.nextId =
        some (PState.rejectedWith (ErrVal.err e)) ∧
      t ∉ s'.runningTasks ∧
      alookup s'.taskRegistry t = none ∧
      alookup s'.runningTaskByWorker w = none ∧
      s'.idleWorkers = idle' ∧
      s'.workers = s.workers := by
  simp only [WorkerPool.runTask, runTaskGo, hreg, hnc, hpop]
  rw [if_neg (by simp [hnc]), if_neg hsig]
  refine ⟨_, rfl, ?_, not_mem_sdel_self _ _, ?_, ?_, rfl, rfl⟩
  · refine lookupProm_settleProm_pending _ ?_
    simp [lookupProm]
  · rw [alookup_aremove]
    simp
  · rw [alookup_aremove]
    simp

/-- Witness for C4 at the concrete one-idle-worker pool. -/
theorem C4_post_failure_witness :
    ∃ s', WorkerPool.runTask 1 poolIdle1 t0 none (some 42) = .ok (s', 0) ∧
      lookupProm s'.promises 0 = some (PState.rejectedWith (ErrVal.err 42)) ∧
      t0 ∉ s'.runningTasks ∧
      alookup s'.taskRegistry t0 = none ∧
      alookup s'.runningTaskByWorker 0 = none ∧
      s'.idleWorkers = ⟨2, [some 0, none], 1, 1, 0⟩ ∧
      s'.workers = poolIdle1.workers :=
  C4_post_failure 0 poolIdle1 t0 42 0 ⟨2, [some 0, none], 1, 1, 0⟩
    (by decide) (by decide) (by decide) (by decide)

/-! ## Claim C5 — autoGrow and pending acquires -/

/-- C5 counterexample: at `poolRun` every precondition of the claim holds
(pool open, no crash replacement in flight, |workers| = 1 < maxPoolSize = 2,
no idle worker) and `acquireWorker` enrolls the caller as a pending acquire —
but `autoGrow` only checks `taskQueue.len > 0`, which is 0 here, so NO worker
is spawned: `workers` is still `[0]`. -/
theorem C5_pending_acquire_no_grow :
    WorkerPool.acquireWorker 1 none poolRun = .ok poolAcquirePending ∧
    poolAcquirePending.2 = AcqRes.pending 1 ∧
    poolAcquirePending.1.workers = [0] ∧
    poolAcquirePending.1.acquiringWorkerResolvers.toList = [1] ∧
    poolRun.closed = false ∧ poolRun.replacingCrashedWorkers = 0 ∧
    poolRun.workers.length < poolRun.maxPoolSize ∧
    poolRun.idleWorkers.len = 0 ∧ poolRun.taskQueue.len = 0 := by
  decide

/-- C5 (amended): when `acquireWorker` finds no idle worker it enrolls the
caller as a pending acquire and triggers `autoGrow`, but `autoGrow` spawns a
worker only when additionally `|taskQueue| > 0`; with an empty task queue no
worker is spawned — a pending acquire alone does not satisfy the grow
precondition. -/
theorem C5_acquire_empty_queue_no_grow (fuel : Nat) (pe : Option Nat)
    (s : WorkerPool) (hnc : s.closed = false)
    (hidle : s.idleWorkers.len = 0) (hq : s.taskQueue.len = 0) :
    ∃ s', WorkerPool.acquireWorker fuel pe s = .ok (s', .pending s.nextId) ∧
      s'.workers = s.workers ∧
      s'.acquiringWorkerResolvers = s.acquiringWorkerResolvers.push s.nextId ∧
      lookupProm s'.promises s.nextId = some PState.pending := by
  have hpop : s.idleWorkers.pop = (none, s.idleWorkers) := by
    simp only [CircularBuffer.len] at hidle
    simp [CircularBuffer.pop, hidle]
  simp only [WorkerPool.acquireWorker, hpop, WorkerPool.autoGrow, autoGrowGo]
  rw [if_neg (by simp [hnc]), if_neg (by simp [hnc])]
  rw [if_neg (by simp [Queue.len] at hq ⊢; simp [hq])]
  exact ⟨_, rfl, rfl, rfl, by simp [lookupProm]⟩

/-- Witness for C5 at `poolRun`. -/
theorem C5_acquire_empty_queue_no_grow_witness :
    ∃ s', WorkerPool.acquireWorker 1 none poolRun = .ok (s', .pending 1) ∧
      s'.workers = poolRun.workers ∧
      s'.acquiringWorkerResolvers = poolRun.acquiringWorkerResolvers.push 1 ∧
      lookupProm s'.promises 1 = some PState.pending :=
  C5_acquire_empty_queue_no_grow 1 none poolRun (by decide) (by decide)
    (by decide)

/-! ## Claim C6 — abort-subscription lifetime -/

/-- C6 counterexample: the claim says the abort listener is detached on every
terminal transition including the pre-aborted fast path; but submitting the
pre-aborted `tA` attaches the listener, rejects with `Aborted`, deregisters —
and leaves the subscription attached. -/
theorem C6_fast_path_listener_kept :
    WorkerPool.runTask 1 poolIdle1 tA none none = .ok poolFastAbort ∧
    poolFastAbort.2 = 0 ∧
    poolFastAbort.1.listeners = [(tA, 0)] ∧
    alookup poolFastAbort.1.taskRegistry tA = none ∧
    lookupProm poolFastAbort.1.promises 0 =
      some (PState.rejectedWith ErrVal.abortException) := by
  decide

/-- C6 (amended): the abort subscription attached at the first
`runTask(task)` is detached on a RESULT-driven terminal transition and by the
abort closure itself; it is NOT detached by the pre-aborted fast path, by
pool close, by a synchronous dispatch failure, or by a worker-crash
rejection. -/
theorem C6_abort_subscription (fuel : Nat) :
    (∀ pe s w err d t info s',
      alookup s.runningTaskByWorker w = some t →
      alookup s.taskRegistry t = some info →
      info.aborted = false → t.hasAbortSignal = true →
      WorkerPool.handleMessage fuel pe s w (.result err d) = .ok s' →
      (t, info.resolversId) ∉ s'.listeners) ∧
    (∀ s t rid, t.hasAbortSignal = true →
      (t, rid) ∉ (WorkerPool.abortTask s t rid).listeners) ∧
    (∀ pe s t pr, s.closed = false → alookup s.taskRegistry t = none →
      t.hasAbortSignal = true → t.signalAborted = true →
      WorkerPool.runTask (fuel + 1) s t none pe = .ok pr →
      pr.2 = s.nextId ∧ (t, s.nextId) ∈ pr.1.listeners ∧
      alookup pr.1.taskRegistry t = none) ∧
    (∀ s, (WorkerPool.close s).listeners = s.listeners) ∧
    (∀ s t e pr w idle', s.closed = false →
      alookup s.taskRegistry t = none → t.hasAbortSignal = true →
      t.signalAborted = false → s.idleWorkers.pop = (some w, idle') →
      WorkerPool.runTask (fuel + 1) s t none (some e) = .ok pr →
      (t, s.nextId) ∈ pr.1.listeners) ∧
    (∀ s w e s', WorkerPool.handleWorkerError s w e = .ok s' →
      s'.listeners = s.listeners) := by
  refine ⟨?_, ?_, ?_, ?_, ?_, ?_⟩
  · -- RESULT detaches, then the idle path never re-adds it
    intro pe s w err d t info s' hw hreg hab hsig h
    simp only [WorkerPool.handleMessage, hw, hreg] at h
    rw [if_neg (by simp [hab]), if_pos hsig] at h
    exact (handleMsgFall_stepInv fuel pe _ w s' h).listen_mono
      (t, info.resolversId) (not_mem_sdel_self _ _)
  · intro s t rid hsig
    exact abortTask_listener_removed s t rid hsig
  · intro pe s t pr hnc hreg hsig hsa h
    simp only [WorkerPool.runTask, runTaskGo, hreg] at h
    rw [if_neg (by simp [hnc]), if_pos hsig, if_pos ⟨hsig, hsa⟩] at h
    cases h
    refine ⟨rfl, List.mem_cons_self _ _, ?_⟩
    rw [alookup_aremove]
    simp
  · intro s
    simp only [WorkerPool.close]
    split <;> rfl
  · intro s t e pr w idle' hnc hreg hsig hsa hpop h
    simp only [WorkerPool.runTask, runTaskGo, hreg, hpop] at h
    rw [if_neg (by simp [hnc]), if_pos hsig,
      if_neg (by simp [hsa]), ] at h
    cases h
    exact List.mem_cons_self _ _
  · intro s w e s' h
    simp only [WorkerPool.handleWorkerError] at h
    split at h
    · simp at h
    · split at h
      · split at h <;> cases h <;> rfl
      · cases h
        rfl

/-- Witness for C6: each branch at its concrete state. -/
theorem C6_abort_subscription_witness :
    ((tB, 0) ∉ poolAfterResult.listeners) ∧
    ((tB, 0) ∉ (WorkerPool.abortTask poolRun tB 0).listeners) ∧
    (poolFastAbort.2 = 0 ∧ (tA, 0) ∈ poolFastAbort.1.listeners ∧
      alookup poolFastAbort.1.taskRegistry tA = none) ∧
    ((WorkerPool.close poolC2).listeners = poolC2.listeners) ∧
    ((tB, 0) ∈ poolDispatchFail.1.listeners) ∧
    (poolAfterCrash.listeners = poolRun.listeners) :=
  ⟨(C6_abort_subscription 1).1 none poolRun 0 none 7 tB ⟨0, false, 0⟩
      poolAfterResult (by decide) (by decide) (by decide) (by decide)
      (by decide),
   (C6_abort_subscription 0).2.1 poolRun tB 0 (by decide),
   (C6_abort_subscription 0).2.2.1 none poolIdle1 tA poolFastAbort
      (by decide) (by decide) (by decide) (by decide) (by decide),
   (C6_abort_subscription 0).2.2.2.1 poolC2,
   (C6_abort_subscription 0).2.2.2.2.1 poolIdle1 tB 42 poolDispatchFail 0
      ⟨2, [some 0, none], 1, 1, 0⟩ (by decide) (by decide) (by decide)
      (by decide) (by decide) (by decide),
   (C6_abort_subscription 0).2.2.2.2.2 poolRun 0 5 poolAfterCrash
      (by decide)⟩

/-! ## Claim C2 — what close() settles -/

theorem alookup_mem {A B : Type} [DecidableEq A] {m : List (A × B)} {k : A}
    {v : B} (h : alookup m k = some v) : (k, v) ∈ m := by
  induction m with
  | nil => simp [alookup] at h
  | cons p m ih =>
    obtain ⟨p1, p2⟩ := p
    simp only [alookup] at h
    split at h
    · rename_i hpk
      cases h
      have hk : p1 = k := hpk
      rw [hk]
      exact List.mem_cons_self _ _
    · exact List.mem_cons_of_mem _ (ih h)

theorem rejectAllReg_rejected {r : Nat} {e : ErrVal} :
    ∀ (reg : List (Task × TaskInfo)) (P : List (Nat × PState)),
      lookupProm P r = some (.rejectedWith e) →
      lookupProm (rejectAllReg P reg) r = some (.rejectedWith e) := by
  intro reg
  induction reg with
  | nil =>
    intro P h
    exact h
  | cons p rest ih =>
    intro P h
    obtain ⟨t1, i1⟩ := p
    simp only [rejectAllReg]
    exact ih _ (lookupProm_settleProm_rejected _ _ h)

theorem rejectAllReg_pending_mem :
    ∀ (reg : List (Task × TaskInfo)) (P : List (Nat × PState)) (t : Task)
      (info : TaskInfo), (t, info) ∈ reg →
      lookupProm P info.resolversId = some PState.pending →
      lookupProm (rejectAllReg P reg) info.resolversId =
        some (PState.rejectedWith .poolClosed) := by
  intro reg
  induction reg with
  | nil =>
    intro P t info hmem
    simp at hmem
  | cons p rest ih =>
    intro P t info hmem hpend
    obtain ⟨t1, i1⟩ := p
    simp only [rejectAllReg]
    rcases List.mem_cons.mp hmem with heq | hmem'
    · obtain ⟨h1, h2⟩ := Prod.mk.injEq .. ▸ heq
      subst h1 h2
      exact rejectAllReg_rejected rest _
        (lookupProm_settleProm_pending _ hpend)
    · by_cases hid : i1.resolversId = info.resolversId
      · rw [← hid] at hpend ⊢
        exact rejectAllReg_rejected rest _
          (lookupProm_settleProm_pending _ hpend)
      · refine ih _ t info hmem' ?_
        rw [lookupProm_settleProm, if_neg (by cc)]
        exact hpend

theorem rejectAllReg_pending_cases :
    ∀ (reg : List (Task × TaskInfo)) (P : List (Nat × PState)) (r : Nat),
      lookupProm P r = some PState.pending →
      lookupProm (rejectAllReg P reg) r = some PState.pending ∨
      lookupProm (rejectAllReg P reg) r =
        some (PState.rejectedWith .poolClosed) := by
  intro reg
  induction reg with
  | nil =>
    intro P r h
    exact .inl h
  | cons p rest ih =>
    intro P r h
    obtain ⟨t1, i1⟩ := p
    simp only [rejectAllReg]
    by_cases hid : i1.resolversId = r
    · subst hid
      exact .inr (rejectAllReg_rejected rest _
        (lookupProm_settleProm_pending _ h))
    · refine ih _ r ?_
      rw [lookupProm_settleProm, if_neg (by cc)]
      exact h

theorem rejectAllReg_untouched :
    ∀ (reg : List (Task × TaskInfo)) (P : List (Nat × PState)) (r : Nat),
      (∀ p ∈ reg, p.2.resolversId ≠ r) →
      lookupProm (rejectAllReg P reg) r = lookupProm P r := by
  intro reg
  induction reg with
  | nil =>
    intro P r _
    rfl
  | cons p rest ih =>
    intro P r hne
    obtain ⟨t1, i1⟩ := p
    simp only [rejectAllReg]
    rw [ih _ r (fun p hp => hne p (List.mem_cons_of_mem _ hp))]
    rw [lookupProm_settleProm,
      if_neg (by exact fun h => hne (t1, i1) (List.mem_cons_self _ _) h.symm)]

theorem rejectQueueFuel_rejected {r : Nat} {e : ErrVal} :
    ∀ (fuel : Nat) (q : Queue Nat) (P : List (Nat × PState)),
      lookupProm P r = some (.rejectedWith e) →
      lookupProm (rejectQueueFuel P fuel q).1 r = some (.rejectedWith e) := by
  intro fuel
  induction fuel with
  | zero =>
    intro q P h
    exact h
  | succ fuel ih =>
    intro q P h
    simp only [rejectQueueFuel]
    split
    · exact h
    · exact ih _ _ (lookupProm_settleProm_rejected _ _ h)

theorem rejectQueueFuel_hit {l : List Nat} :
    ∀ (q : Queue Nat) (fuel : Nat) (P : List (Nat × PState)) (r : Nat),
      QueueAbs q l → l.length ≤ fuel → r ∈ l →
      lookupProm P r = some PState.pending →
      lookupProm (rejectQueueFuel P fuel q).1 r =
        some (PState.rejectedWith .poolClosed) := by
  induction l with
  | nil =>
    intro q fuel P r _ _ hmem
    simp at hmem
  | cons x rest ih =>
    intro q fuel P r habs hlen hmem hpend
    cases fuel with
    | zero => simp at hlen
    | succ fuel =>
      have hfst : (q.pop).1 = some x := by
        rw [habs.pop_fst]
        rfl
      have hsnd : QueueAbs (q.pop).2 rest := habs.pop_snd
      simp only [rejectQueueFuel, hfst]
      rcases List.mem_cons.mp hmem with rfl | hmem'
      · exact rejectQueueFuel_rejected _ _ _
          (lookupProm_settleProm_pending _ hpend)
      · by_cases hxr : x = r
        · subst hxr
          exact rejectQueueFuel_rejected _ _ _
            (lookupProm_settleProm_pending _ hpend)
        · refine ih _ fuel _ r hsnd (by simp at hlen; omega) hmem' ?_
          rw [lookupProm_settleProm, if_neg (fun h => hxr h.symm)]
          exact hpend

theorem rejectQueueFuel_untouched {r : Nat} :
    ∀ (fuel : Nat) (l : List Nat) (q : Queue Nat) (P : List (Nat × PState)),
      QueueAbs q l → r ∉ l →
      lookupProm (rejectQueueFuel P fuel q).1 r = lookupProm P r := by
  intro fuel
  induction fuel with
  | zero =>
    intro l q P _ _
    rfl
  | succ fuel ih =>
    intro l q P habs hnmem
    cases l with
    | nil =>
      have hfst : (q.pop).1 = none := by
        rw [habs.pop_fst]
        rfl
      simp only [rejectQueueFuel, hfst]
    | cons x rest =>
      have hfst : (q.pop).1 = some x := by
        rw [habs.pop_fst]
        rfl
      have hsnd : QueueAbs (q.pop).2 rest := habs.pop_snd
      simp only [List.mem_cons, not_or] at hnmem
      simp only [rejectQueueFuel, hfst]
      rw [ih rest _ _ hsnd hnmem.2]
      rw [lookupProm_settleProm, if_neg hnmem.1]

/-- C2 counterexample: close a pool holding one registered task (resolver 0),
one pending acquire resolver (10) and one pending
`waitForAvailableResource` resolver (11): 0 and 10 are rejected with
`PoolClosed`, but 11 is left pending — not every pending waiter is
settled. -/
theorem C2_close_leaves_available_waiter :
    poolC2.closed = false ∧
    poolC2.availableResourceResolvers.toList = [11] ∧
    lookupProm poolC2.promises 11 = some PState.pending ∧
    lookupProm (WorkerPool.close poolC2).promises 0 =
      some (PState.rejectedWith ErrVal.poolClosed) ∧
    lookupProm (WorkerPool.close poolC2).promises 10 =
      some (PState.rejectedWith ErrVal.poolClosed) ∧
    lookupProm (WorkerPool.close poolC2).promises 11 = some PState.pending ∧
    ¬ lookupProm (WorkerPool.close poolC2).promises 11 =
      some (PState.rejectedWith ErrVal.poolClosed) ∧
    (WorkerPool.close poolC2).closed = true := by
  decide

/-- C2 (amended): `close()` on an open pool rejects with `PoolClosed` every
registered task's pending completion and every pending `acquireWorker`
resolver, but it never touches `availableResourceResolvers`: the queue of
pending `waitForAvailableResource` waiters survives `close` unchanged and
their promises are left exactly as they were (in particular pending ones
stay pending forever). -/
theorem C2_close_settles (s : WorkerPool) (hnc : s.closed = false)
    (hwf : QueueWF s.acquiringWorkerResolvers) :
    (∀ t info, alookup s.taskRegistry t = some info →
      lookupProm s.promises info.resolversId = some PState.pending →
      lookupProm (WorkerPool.close s).promises info.resolversId =
        some (PState.rejectedWith ErrVal.poolClosed)) ∧
    (∀ rid, rid ∈ s.acquiringWorkerResolvers.toList →
      lookupProm s.promises rid = some PState.pending →
      lookupProm (WorkerPool.close s).promises rid =
        some (PState.rejectedWith ErrVal.poolClosed)) ∧
    (WorkerPool.close s).availableResourceResolvers =
      s.availableResourceResolvers ∧
    (∀ rid, (∀ p ∈ s.taskRegistry, p.2.resolversId ≠ rid) →
      rid ∉ s.acquiringWorkerResolvers.toList →
      lookupProm (WorkerPool.close s).promises rid =
        lookupProm s.promises rid) := by
  have habs : QueueAbs s.acquiringWorkerResolvers
      s.acquiringWorkerResolvers.toList := ⟨hwf.1, rfl, hwf.2⟩
  have hlen : s.acquiringWorkerResolvers.len =
      s.acquiringWorkerResolvers.toList.length := habs.len_eq
  have hcl : (WorkerPool.close s).promises =
      (rejectQueueFuel (rejectAllReg s.promises s.taskRegistry)
        s.acquiringWorkerResolvers.len s.acquiringWorkerResolvers).1 := by
    simp only [WorkerPool.close]
    rw [if_neg (by simp [hnc])]
  refine ⟨?_, ?_, ?_, ?_⟩
  · intro t info hreg hpend
    rw [hcl]
    exact rejectQueueFuel_rejected _ _ _
      (rejectAllReg_pending_mem _ _ t info (alookup_mem hreg) hpend)
  · intro rid hmem hpend
    rw [hcl]
    rcases rejectAllReg_pending_cases s.taskRegistry s.promises rid hpend
      with hp | hp
    · exact rejectQueueFuel_hit _ _ _ _ habs (le_of_eq hlen.symm) hmem hp
    · exact rejectQueueFuel_rejected _ _ _ hp
  · simp only [WorkerPool.close]
    rw [if_neg (by simp [hnc])]
  · intro rid hne hnmem
    rw [hcl, rejectQueueFuel_untouched _ _ _ _ habs hnmem,
      rejectAllReg_untouched _ _ _ hne]

/-- Witness for C2 at `poolC2`. -/
theorem C2_close_settles_witness :
    (lookupProm (WorkerPool.close poolC2).promises 0 =
      some (PState.rejectedWith ErrVal.poolClosed)) ∧
    (lookupProm (WorkerPool.close poolC2).promises 10 =
      some (PState.rejectedWith ErrVal.poolClosed)) ∧
    ((WorkerPool.close poolC2).availableResourceResolvers =
      poolC2.availableResourceResolvers) ∧
    (lookupProm (WorkerPool.close poolC2).promises 11 =
      lookupProm poolC2.promises 11) :=
  ⟨(C2_close_settles poolC2 (by decide) (by decide)).1 tB ⟨0, false, 0⟩
      (by decide) (by decide),
   (C2_close_settles poolC2 (by decide) (by decide)).2.1 10 (by decide)
      (by decide),
   (C2_close_settles poolC2 (by decide) (by decide)).2.2.1,
   (C2_close_settles poolC2 (by decide) (by decide)).2.2.2 11 (by decide)
      (by decide)⟩

end WP
